import Mathlib

set_option autoImplicit false

/-
Verification of the real-time speech-translation relay.

Shallow embedding of the repository code: each Lean definition below is a
direct translation of one Python function, with external collaborators
(speech recognition, text generation, speech synthesis, the publish channel)
abstracted as oracle parameters and mutable object state passed explicitly.
Definitions come first, theorems follow.
-/

namespace Deepgram

/-- Transcript event as extracted by `DeepgramClient._process_response` from a
Deepgram response: the alternative text and the `is_final` flag of the message. -/
structure TranscriptEvent where
  text : String
  is_final : Bool
  deriving DecidableEq

/-- Mutable state of `DeepgramClient` relevant to the dedup gate:
`self.last_transcript`, initialised to `""` in `__init__`. -/
structure DedupState where
  last_transcript : String
  deriving DecidableEq

/-- Result of one `_process_response` step: the texts passed to the
`on_transcript` callback (zero or one) and the updated client state. -/
structure GateStep where
  forwarded : List String
  state : DedupState
  deriving DecidableEq

/-- Embedding of `DeepgramClient._process_response` (deepgram_client.py:187-218),
restricted to the transcript-handling branch. The code first requires a
non-empty transcript (the `alt` field must be present and truthy), then
forwards iff `is_final or transcript != self.last_transcript`, setting
`self.last_transcript = transcript` before invoking the callback. -/
def process_response (st : DedupState) (e : TranscriptEvent) : GateStep :=
  if e.text ≠ "" then
    if e.is_final || e.text ≠ st.last_transcript then
      { forwarded := [e.text], state := { last_transcript := e.text } }
    else
      { forwarded := [], state := st }
  else
    { forwarded := [], state := st }

/-- Runs the dedup gate over a sequence of incoming transcript events,
collecting every text forwarded to the callback. -/
def runGate (st : DedupState) : List TranscriptEvent → List String × DedupState
  | [] => ([], st)
  | e :: es =>
    let s := process_response st e
    let r := runGate s.state es
    (s.forwarded ++ r.1, r.2)

/-- Sequence of events all carrying the same text, with the given finality flags. -/
def repeatEvents (t : String) (flags : List Bool) : List TranscriptEvent :=
  flags.map fun b => { text := t, is_final := b }

end Deepgram

namespace Publisher

/-- Lookup in an association list keyed by strings, first match wins
(models Python dict read `d[k]` / `d.get(k)`). -/
def lookup {α : Type} : List (String × α) → String → Option α
  | [], _ => none
  | (k2, v) :: rest, k => if k2 = k then some v else lookup rest k

/-- Assignment in an association list (models Python dict write `d[k] = v`):
replaces the binding of the key when present, appends it otherwise. -/
def updateEntry {α : Type} : List (String × α) → String → α → List (String × α)
  | [], k, v => [(k, v)]
  | (k2, v2) :: rest, k, v =>
    if k2 = k then (k, v) :: rest else (k2, v2) :: updateEntry rest k v

/-- Deletion from an association list (models Python `del d[k]`). -/
def eraseEntry {α : Type} : List (String × α) → String → List (String × α)
  | [], _ => []
  | (k2, v2) :: rest, k => if k2 = k then rest else (k2, v2) :: eraseEntry rest k

/-- Keys of an association list, in order. -/
def keysOf {α : Type} (l : List (String × α)) : List String := l.map Prod.fst

/-- Cache well-formedness: at most one entry per room name. -/
def KeysNodup {α : Type} (l : List (String × α)) : Prop := (keysOf l).Nodup

/-- Connection state of an `rtc.Room` handle. -/
inductive ConnState where
  | connected
  | disconnected
  deriving DecidableEq

/-- Model of an `rtc.Room` object: an object identity plus its
`connection_state` field. -/
structure Room where
  id : Nat
  connection_state : ConnState
  deriving DecidableEq

/-- Mutable fields of `AudioPublisher` (publisher.py:43-46): the room cache and
the broadcast cache, both keyed by room name, plus a counter supplying fresh
object identities for newly constructed rooms and broadcasts. -/
structure PubState where
  active_rooms : List (String × Room)
  active_broadcasts : List (String × Nat)
  next_id : Nat
  deriving DecidableEq

/-- Shared tail of `AudioPublisher.get_room`: construct a fresh `rtc.Room`,
attempt `room.connect` (oracle, may raise), and on success store the connected
room under the key; on failure the exception is re-raised and the cache is
untouched. -/
def connect_new (connect : Nat → Except String Unit) (st : PubState)
    (room_name : String) : Except String (Room × PubState) :=
  match connect st.next_id with
  | .ok _ =>
    .ok ({ id := st.next_id, connection_state := .connected },
         { st with
             active_rooms := updateEntry st.active_rooms room_name
               { id := st.next_id, connection_state := .connected },
             next_id := st.next_id + 1 })
  | .error e => .error e

/-- Embedding of `AudioPublisher.get_room` (publisher.py:48-91): return the
cached room when its `connection_state` is CONNECTED, otherwise create and
connect a new room and store it under the room name. -/
def get_room (connect : Nat → Except String Unit) (st : PubState)
    (room_name : String) : Except String (Room × PubState) :=
  match lookup st.active_rooms room_name with
  | some r =>
    if r.connection_state = ConnState.connected then .ok (r, st)
    else connect_new connect st room_name
  | none => connect_new connect st room_name

/-- Embedding of `AudioPublisher.get_broadcast` (publisher.py:93-114): return
the cached `AudioBroadcast` when present, otherwise construct a fresh one
(identified by `next_id`) and store it in the cache. -/
def get_broadcast (st : PubState) (room_name : String) : Nat × PubState :=
  match lookup st.active_broadcasts room_name with
  | some b => (b, st)
  | none =>
    (st.next_id,
     { st with
         active_broadcasts := updateEntry st.active_broadcasts room_name st.next_id,
         next_id := st.next_id + 1 })

/-- Result dict built by `AudioPublisher.publish_audio`: the `success` flag and
the optional `error` message. -/
structure PublishResult where
  success : Bool
  error : Option String
  deriving DecidableEq

/-- Embedding of `AudioPublisher.publish_audio` (publisher.py:116-154), with
`broadcast.publish` abstracted as an oracle from a broadcast identity and a
payload to success or a raised exception message. Returns the result dict, the
updated publisher state, and the trace of `broadcast.publish` calls made (the
broadcast identity and the exact bytes handed over). The generic `except`
clause only fills the result dict; it touches neither cache. -/
def publish_audio (pub : Nat → List Nat → Except String Unit) (st : PubState)
    (audio_bytes : List Nat) (room_name : String) :
    PublishResult × PubState × List (Nat × List Nat) :=
  let g := get_broadcast st room_name
  match pub g.1 audio_bytes with
  | .ok _ => ({ success := true, error := none }, g.2, [(g.1, audio_bytes)])
  | .error e =>
    ({ success := false,
       error := some ("发布音频到房间 " ++ room_name ++ " 失败: " ++ e) },
     g.2, [(g.1, audio_bytes)])

/-- Embedding of `AudioPublisher.close_room` (publisher.py:188-213): disconnect
the cached room (oracle, may raise) and on success delete both cache entries
for the name; on a disconnect exception return `false` with the caches as they
were; a missing entry counts as a successful close. -/
def close_room (disconnect : Nat → Except String Unit) (st : PubState)
    (room_name : String) : Bool × PubState :=
  match lookup st.active_rooms room_name with
  | some r =>
    match disconnect r.id with
    | .ok _ =>
      (true,
       { st with
           active_rooms := eraseEntry st.active_rooms room_name,
           active_broadcasts := eraseEntry st.active_broadcasts room_name })
    | .error _ => (false, st)
  | none => (true, st)

end Publisher

namespace TranslationSystem

/-- Per-language configuration record: the values stored under each language
code in the `LANGUAGES` table of integrated_translation_system.py. -/
structure LangInfo where
  name : String
  room : String
  deriving DecidableEq

/-- Embedding of the `LANGUAGES` table (integrated_translation_system.py:27-36):
two configured targets, `ko` publishing to `room_kr` and `vi` to `room_vn`. -/
def LANGUAGES : List (String × LangInfo) :=
  [("ko", { name := "韩文", room := "room_kr" }),
   ("vi", { name := "越南文", room := "room_vn" })]

/-- One task created by the fan-out loop of `handle_transcript`: the argument
tuple of the `translate_and_speak(text, lang_code, room, lang_name)` call
wrapped in `asyncio.create_task`. -/
structure PipelineTask where
  text : String
  lang_code : String
  room : String
  lang_name : String
  deriving DecidableEq

/-- Embedding of `TranslationSystem.handle_transcript`
(integrated_translation_system.py:61-83): if the text equals
`self.last_transcript` the transcript is dropped (`none`, early return);
otherwise `last_transcript` is set to the text and one pipeline task per
`LANGUAGES` entry is created. Returns the new `last_transcript` and the
created tasks. -/
def handle_transcript (last_transcript text : String) :
    Option (String × List PipelineTask) :=
  if text = last_transcript then none
  else
    some (text, LANGUAGES.map fun p =>
      { text := text, lang_code := p.1, room := p.2.room, lang_name := p.2.name })

/-- Outcome of one `translate_and_speak` run: either the stage exception was
caught and logged with the language name, or the run completed with the
publish result dict in hand. -/
inductive Outcome where
  | errorLogged (lang_name : String) (msg : String)
  | completed (room : String) (result : Publisher.PublishResult)
  deriving DecidableEq

/-- Embedding of `TranslationSystem.translate_and_speak`
(integrated_translation_system.py:85-113): synthesize the text via the
Cartesia oracle (may raise), then hand the bytes to
`AudioPublisher.publish_audio`; the surrounding `try/except` catches any stage
exception and logs it with the language name, so the function itself never
raises. Returns the outcome, the updated publisher state, and the trace of
`broadcast.publish` calls with their payloads. -/
def translate_and_speak (tts : String → String → Except String (List Nat))
    (pub : Nat → List Nat → Except String Unit) (st : Publisher.PubState)
    (text lang_code room_name lang_name : String) :
    Outcome × Publisher.PubState × List (Nat × List Nat) :=
  match tts text lang_code with
  | .error e => (.errorLogged lang_name e, st, [])
  | .ok audio_bytes =>
    let r := Publisher.publish_audio pub st audio_bytes room_name
    (.completed room_name r.1, r.2.1, r.2.2)

/-- Runs the fan-out of `handle_transcript` over a list of language targets:
one `translate_and_speak` per entry, threading the shared publisher state in
dispatch order. Returns the per-language outcomes, the final publisher state,
and the accumulated `broadcast.publish` trace. -/
def run_tasks (tts : String → String → Except String (List Nat))
    (pub : Nat → List Nat → Except String Unit) :
    List (String × LangInfo) → Publisher.PubState → String →
    List Outcome × Publisher.PubState × List (Nat × List Nat)
  | [], st, _ => ([], st, [])
  | p :: rest, st, text =>
    let r := translate_and_speak tts pub st text p.1 p.2.room p.2.name
    let rr := run_tasks tts pub rest r.2.1 text
    (r.1 :: rr.1, rr.2.1, r.2.2 ++ rr.2.2)

/-- Control effects performed by a transcript handler after accepting a
transcript, in program order: task creation (recording whether the handle is
kept anywhere) and awaiting of previously created tasks (`asyncio.gather`). -/
inductive Effect where
  | spawnTask (lang_code room : String) (handle_retained : Bool)
  | awaitTasks (count : Nat)
  deriving DecidableEq

/-- Effect trace of `TranslationSystem.handle_transcript`
(integrated_translation_system.py:61-83) — the loop appends each created task
to the local `tasks` list, and line 83 `await asyncio.gather(*tasks)` blocks
until every pipeline task finishes before the handler returns. -/
def handle_transcript_effects (last_transcript text : String) : List Effect :=
  if text = last_transcript then []
  else
    (LANGUAGES.map fun p => Effect.spawnTask p.1 p.2.room true) ++
      [Effect.awaitTasks LANGUAGES.length]

/-- Handler property: it returns without awaiting any pipeline task. -/
def returnsWithoutWaiting (effects : List Effect) : Prop :=
  ∀ n, Effect.awaitTasks n ∉ effects

end TranslationSystem

namespace DeepgramSetup

/-- Response object returned by the translator `achat` call: carries a
`content` field (session_factory.py `GroqTranslator.achat` result shape). -/
structure ChatResponse where
  content : String
  deriving DecidableEq

/-- Korean prompt built by `translate_text` (deepgram_client.py:413). -/
def kr_prompt (text : String) : String :=
  "请将以下中文翻译成韩文，只返回翻译结果，不要任何解释：" ++ text

/-- Embedding of the Korean half of `translate_text` inside
`setup_deepgram_client.handle_transcript` (deepgram_client.py:407-422): build
the prompt, call the translator once (oracle, may raise), strip the reply, and
invoke `on_kr_translation` with the translation when it is non-empty; on an
exception invoke `on_kr_translation` with a bracketed error string instead.
Returns the list of strings delivered to `on_kr_translation` and the list of
prompts sent to the translator. -/
def translate_text_kr (achat : String → Except String ChatResponse)
    (text : String) : List String × List String :=
  match achat (kr_prompt text) with
  | .ok resp =>
    let kr_translation := resp.content.trim
    (if kr_translation ≠ "" then [kr_translation] else [], [kr_prompt text])
  | .error e => (["[韩文翻译错误: " ++ e ++ "]"], [kr_prompt text])

/-- Effect trace of `setup_deepgram_client.handle_transcript`
(deepgram_client.py:399-447) — line 441 `asyncio.create_task(translate_text())`
creates one task whose handle is discarded (stored nowhere), and the handler
returns without awaiting it. -/
def handle_transcript_effects (text : String) : List TranslationSystem.Effect :=
  [TranslationSystem.Effect.spawnTask "translate_text" text false]

end DeepgramSetup

namespace SessionFactory

/-- Embedding of `GroqTranslator.generate` (session_factory.py:168-199): call
the Groq chat completion once (oracle, may raise) and return the stripped
content; on an exception return a bracketed error string to the caller instead
of raising. -/
def GroqTranslator_generate (complete : String → Except String String)
    (text : String) : String :=
  match complete text with
  | .ok content => content.trim
  | .error e => "[翻译错误: " ++ e ++ "]"

end SessionFactory

namespace Startup

/-- Outcome of a startup path: the process terminated with an exit code, the
function returned early without raising, or startup proceeded. -/
inductive StartOutcome where
  | exited (code : Nat)
  | refusedQuiet
  | started
  deriving DecidableEq

/-- True exactly when the outcome terminates the process. -/
def isFatal : StartOutcome → Bool
  | .exited _ => true
  | _ => false

/-- Python falsiness of an optional string: `None` or the empty string. -/
def strFalsy : Option String → Bool
  | none => true
  | some s => s = ""

/-- Embedding of the module-level key validation of livekit_agent.py
(lines 40-64): the keys default to `""`, and `exit(1)` runs unless the Groq,
Deepgram and Cartesia keys are all non-empty (the LiveKit settings are only
logged as errors without exiting). -/
def livekit_agent_startup (groq deepgram cartesia : String) : StartOutcome :=
  if groq = "" ∨ deepgram = "" ∨ cartesia = "" then .exited 1 else .started

/-- Embedding of `TranslationSystem.start`
(integrated_translation_system.py:115-126): when already running, or when the
Deepgram or Cartesia key is falsy, it logs an error and returns without
raising or terminating; otherwise it proceeds to start the pipeline. -/
def translation_system_start (is_running : Bool) (deepgram cartesia : Option String) :
    StartOutcome :=
  if is_running then .refusedQuiet
  else if strFalsy deepgram || strFalsy cartesia then .refusedQuiet
  else .started

/-- Embedding of `AudioPublisher.__init__` (publisher.py:22-46): construction
always completes — missing LiveKit url/key/secret only produce a logged
warning. Returns the construction outcome together with whether the
incomplete-configuration warning was logged. -/
def audio_publisher_init (url api_key api_secret : Option String) :
    StartOutcome × Bool :=
  (.started, strFalsy url || strFalsy api_key || strFalsy api_secret)

end Startup

namespace Cartesia

/-- Embedding of `CartesiaTTS.LANGUAGE_CODES` (cartesia.py:30-33). -/
def LANGUAGE_CODES : List (String × String) :=
  [("ko", "ko-KR"), ("vi", "vi-VN")]

/-- First observable step of a TTS call: either a `ValueError` raised before
any network activity, or the network request that would then be issued
(carrying the text and the mapped language code). Error messages keep only
their fixed lead text. -/
inductive TtsStep where
  | valueError (msg : String)
  | issueRequest (text mapped_language : String)
  deriving DecidableEq

/-- True exactly when the step issues a network request. -/
def issuesRequest : TtsStep → Bool
  | .issueRequest _ _ => true
  | _ => false

/-- Embedding of the validation prelude of `CartesiaTTS.text_to_speech`
(cartesia.py:61-111): a falsy API key raises `ValueError` first, then a
language code outside `LANGUAGE_CODES` raises `ValueError`; only past both
checks is the HTTP request issued. -/
def text_to_speech (api_key : Option String) (text language : String) : TtsStep :=
  if Startup.strFalsy api_key then .valueError "Cartesia API 密钥未设置"
  else
    match Publisher.lookup LANGUAGE_CODES language with
    | none => .valueError ("不支持的语言代码: " ++ language)
    | some code => .issueRequest text code

/-- Embedding of the validation prelude of `CartesiaTTS.tts_stream`
(cartesia.py:135-191): identical checks in the same order, before the
WebSocket connection is opened. -/
def tts_stream (api_key : Option String) (text language : String) : TtsStep :=
  if Startup.strFalsy api_key then .valueError "Cartesia API 密钥未设置"
  else
    match Publisher.lookup LANGUAGE_CODES language with
    | none => .valueError ("不支持的语言代码: " ++ language)
    | some code => .issueRequest text code

end Cartesia

/-
Theorems. Helper lemmas about the association-list cache operations come
first, then one theorem (plus witness/counterexample) per specification claim.
-/

theorem lookup_updateEntry_self {α : Type} (l : List (String × α)) (k : String) (v : α) :
    Publisher.lookup (Publisher.updateEntry l k v) k = some v := by
  induction l with
  | nil => simp [Publisher.updateEntry, Publisher.lookup]
  | cons p rest ih =>
    by_cases h : p.1 = k <;>
      simp [Publisher.updateEntry, Publisher.lookup, h, ih]

theorem lookup_updateEntry_ne {α : Type} (l : List (String × α)) (k k2 : String) (v : α)
    (h : k2 ≠ k) :
    Publisher.lookup (Publisher.updateEntry l k v) k2 = Publisher.lookup l k2 := by
  induction l with
  | nil => simp [Publisher.updateEntry, Publisher.lookup, Ne.symm h]
  | cons p rest ih =>
    by_cases hp : p.1 = k
    · simp [Publisher.updateEntry, hp, Publisher.lookup, Ne.symm h]
    · by_cases hq : p.1 = k2 <;>
        simp [Publisher.updateEntry, Publisher.lookup, hp, hq, h, Ne.symm h, ih]

theorem mem_keysOf_updateEntry {α : Type} (l : List (String × α)) (k x : String) (v : α) :
    x ∈ Publisher.keysOf (Publisher.updateEntry l k v) ↔
      x ∈ Publisher.keysOf l ∨ x = k := by
  induction l with
  | nil => simp [Publisher.updateEntry, Publisher.keysOf]
  | cons p rest ih =>
    by_cases hp : p.1 = k
    · simp only [Publisher.updateEntry, hp, eq_self_iff_true, if_true, Publisher.keysOf,
        List.map_cons, List.mem_cons]
      tauto
    · simp only [Publisher.updateEntry, if_neg hp, Publisher.keysOf,
        List.map_cons, List.mem_cons]
      simp only [Publisher.keysOf] at ih
      rw [ih]
      tauto

theorem keysNodup_updateEntry {α : Type} (l : List (String × α)) (k : String) (v : α)
    (h : Publisher.KeysNodup l) : Publisher.KeysNodup (Publisher.updateEntry l k v) := by
  induction l with
  | nil => simp [Publisher.updateEntry, Publisher.KeysNodup, Publisher.keysOf]
  | cons p rest ih =>
    simp only [Publisher.KeysNodup, Publisher.keysOf, List.map_cons, List.nodup_cons] at h
    by_cases hp : p.1 = k
    · simp only [Publisher.updateEntry, hp, eq_self_iff_true, if_true, Publisher.KeysNodup,
        Publisher.keysOf, List.map_cons, List.nodup_cons]
      exact ⟨hp ▸ h.1, h.2⟩
    · have ih2 := ih h.2
      simp only [Publisher.updateEntry, if_neg hp, Publisher.KeysNodup,
        Publisher.keysOf, List.map_cons, List.nodup_cons]
      refine ⟨?_, ih2⟩
      intro hmem
      rcases (mem_keysOf_updateEntry rest k p.1 v).1
          (by simpa [Publisher.keysOf] using hmem) with hm | hm
      · exact h.1 hm
      · exact hp hm

theorem eraseEntry_sublist {α : Type} (l : List (String × α)) (k : String) :
    List.Sublist (Publisher.eraseEntry l k) l := by
  induction l with
  | nil => simp [Publisher.eraseEntry]
  | cons p rest ih =>
    by_cases hp : p.1 = k
    · simp only [Publisher.eraseEntry, hp, if_pos rfl]
      exact List.Sublist.cons p (List.Sublist.refl rest)
    · simpa [Publisher.eraseEntry, hp] using List.Sublist.cons₂ p ih

theorem keysNodup_eraseEntry {α : Type} (l : List (String × α)) (k : String)
    (h : Publisher.KeysNodup l) : Publisher.KeysNodup (Publisher.eraseEntry l k) := by
  exact List.Nodup.sublist (List.Sublist.map Prod.fst (eraseEntry_sublist l k)) h

theorem lookup_eq_none_of_not_mem_keys {α : Type} (l : List (String × α)) (k : String)
    (h : k ∉ Publisher.keysOf l) : Publisher.lookup l k = none := by
  induction l with
  | nil => rfl
  | cons p rest ih =>
    simp only [Publisher.keysOf, List.map_cons, List.mem_cons, not_or] at h
    simp [Publisher.lookup, Ne.symm h.1, ih (by simpa [Publisher.keysOf] using h.2)]

theorem lookup_eraseEntry_self {α : Type} (l : List (String × α)) (k : String)
    (h : Publisher.KeysNodup l) :
    Publisher.lookup (Publisher.eraseEntry l k) k = none := by
  induction l with
  | nil => rfl
  | cons p rest ih =>
    simp only [Publisher.KeysNodup, Publisher.keysOf, List.map_cons, List.nodup_cons] at h
    by_cases hp : p.1 = k
    · simp only [Publisher.eraseEntry, if_pos hp]
      exact lookup_eq_none_of_not_mem_keys rest k (hp ▸ h.1)
    · simp [Publisher.eraseEntry, hp, Publisher.lookup, ih h.2]

theorem lookup_eraseEntry_ne {α : Type} (l : List (String × α)) (k k2 : String)
    (h : k2 ≠ k) :
    Publisher.lookup (Publisher.eraseEntry l k) k2 = Publisher.lookup l k2 := by
  induction l with
  | nil => rfl
  | cons p rest ih =>
    by_cases hp : p.1 = k
    · simp [Publisher.eraseEntry, hp, Publisher.lookup, h, Ne.symm h]
    · by_cases hq : p.1 = k2 <;>
        simp [Publisher.eraseEntry, Publisher.lookup, hp, hq, h, Ne.symm h, ih]

theorem publish_audio_parts (pub : Nat → List Nat → Except String Unit)
    (st : Publisher.PubState) (bytes : List Nat) (name : String) :
    (Publisher.publish_audio pub st bytes name).2.1 = (Publisher.get_broadcast st name).2 ∧
    (Publisher.publish_audio pub st bytes name).2.2 =
      [((Publisher.get_broadcast st name).1, bytes)] := by
  cases h : pub (Publisher.get_broadcast st name).1 bytes <;>
    simp [Publisher.publish_audio, h]

theorem runGate_repeat_same (t : String) (ht : t ≠ "") (bs : List Bool) :
    (Deepgram.runGate { last_transcript := t }
      (Deepgram.repeatEvents t bs)).1.length = bs.count true := by
  induction bs with
  | nil => rfl
  | cons b bs ih =>
    cases b with
    | false =>
      have h : Deepgram.process_response { last_transcript := t }
          { text := t, is_final := false } =
          { forwarded := [], state := { last_transcript := t } } := by
        simp [Deepgram.process_response, ht]
      simp only [Deepgram.repeatEvents, List.map_cons, Deepgram.runGate, h,
        List.nil_append, List.count_cons, if_neg Bool.false_ne_true]
      simpa [Deepgram.repeatEvents] using ih
    | true =>
      have h : Deepgram.process_response { last_transcript := t }
          { text := t, is_final := true } =
          { forwarded := [t], state := { last_transcript := t } } := by
        simp [Deepgram.process_response, ht]
      have ih2 : (Deepgram.runGate { last_transcript := t }
          (List.map (fun b => { text := t, is_final := b } : Bool → Deepgram.TranscriptEvent)
            bs)).1.length = bs.count true := by
        simpa [Deepgram.repeatEvents] using ih
      simp [Deepgram.repeatEvents, Deepgram.runGate, h, List.count_cons, ih2]

/-- C1: the dedup gate forwards an incoming transcript event iff its text
differs from the stored last-forwarded text or the event is final, updating the
stored text exactly on forwards and leaving state untouched on drops; a run of
N events with identical non-empty text starting from a fresh gate forwards
exactly the first plus one per final repeat. -/
theorem dedup_gate_forwarding (st : Deepgram.DedupState) (e : Deepgram.TranscriptEvent)
    (he : e.text ≠ "") (t : String) (ht : t ≠ "") (b : Bool) (bs : List Bool) :
    ((e.is_final = true ∨ e.text ≠ st.last_transcript) →
      Deepgram.process_response st e =
        { forwarded := [e.text], state := { last_transcript := e.text } }) ∧
    (e.is_final = false → e.text = st.last_transcript →
      Deepgram.process_response st e = { forwarded := [], state := st }) ∧
    (Deepgram.runGate { last_transcript := "" }
        (Deepgram.repeatEvents t (b :: bs))).1.length = 1 + bs.count true := by
  refine ⟨?_, ?_, ?_⟩
  · intro h
    rcases h with h | h
    · simp [Deepgram.process_response, he, h]
    · simp [Deepgram.process_response, he, h]
  · intro h1 h2
    simp [Deepgram.process_response, he, h1, h2]
  · have hstep : Deepgram.process_response { last_transcript := "" }
        { text := t, is_final := b } =
        { forwarded := [t], state := { last_transcript := t } } := by
      cases b <;> simp [Deepgram.process_response, ht]
    have hrest := runGate_repeat_same t ht bs
    simp only [Deepgram.repeatEvents] at hrest
    simp [Deepgram.repeatEvents, Deepgram.runGate, hstep, hrest]
    omega

/-- Witness for C1 at a concrete event and a concrete four-event repeat run. -/
theorem dedup_gate_forwarding_witness :
    ("你" : String) ≠ "" ∧ ("你好" : String) ≠ "" ∧
    ((((false : Bool) = true) ∨ ("你" : String) ≠ "") →
      Deepgram.process_response { last_transcript := "" } { text := "你", is_final := false } =
        { forwarded := ["你"], state := { last_transcript := "你" } }) ∧
    ((false : Bool) = false → ("你" : String) = "" →
      Deepgram.process_response { last_transcript := "" } { text := "你", is_final := false } =
        { forwarded := [], state := { last_transcript := "" } }) ∧
    (Deepgram.runGate { last_transcript := "" }
        (Deepgram.repeatEvents "你好" (false :: [false, true, false]))).1.length =
      1 + [false, true, false].count true :=
  ⟨by decide, by decide,
    dedup_gate_forwarding { last_transcript := "" } { text := "你", is_final := false }
      (by decide) "你好" (by decide) false [false, true, false]⟩

/-- C2: for every transcript accepted by the dedup gate, the dispatcher creates
exactly one pipeline task per configured language target — two tasks with the
configured `ko`/`vi` targets, each receiving that target code and its room. -/
theorem fan_out_cardinality (last text : String) (h : text ≠ last) :
    ∃ tasks : List TranslationSystem.PipelineTask,
      TranslationSystem.handle_transcript last text = some (text, tasks) ∧
      tasks.length = TranslationSystem.LANGUAGES.length ∧
      tasks.length = 2 ∧
      tasks = [{ text := text, lang_code := "ko", room := "room_kr", lang_name := "韩文" },
               { text := text, lang_code := "vi", room := "room_vn", lang_name := "越南文" }] := by
  unfold TranslationSystem.handle_transcript
  rw [if_neg h]
  exact ⟨_, rfl, rfl, rfl, rfl⟩

/-- Witness for C2 on the transcript 你好 arriving at a fresh system. -/
theorem fan_out_cardinality_witness :
    ("你好" : String) ≠ "" ∧
    ∃ tasks : List TranslationSystem.PipelineTask,
      TranslationSystem.handle_transcript "" "你好" = some ("你好", tasks) ∧
      tasks.length = TranslationSystem.LANGUAGES.length ∧
      tasks.length = 2 ∧
      tasks = [{ text := "你好", lang_code := "ko", room := "room_kr", lang_name := "韩文" },
               { text := "你好", lang_code := "vi", room := "room_vn", lang_name := "越南文" }] :=
  ⟨by decide, fan_out_cardinality "" "你好" (by decide)⟩

/-- C5: a publish call that fails with a generic exception leaves both caches
exactly as they were when the channel already has a cached broadcast entry (so
the next publish for the channel reuses it), and the publish path never evicts
or replaces any existing cache entry regardless of outcome. -/
theorem publish_error_cache_atomicity
    (pub : Nat → List Nat → Except String Unit) (st : Publisher.PubState)
    (bytes : List Nat) (name : String) (b : Nat) (e : String)
    (hcached : Publisher.lookup st.active_broadcasts name = some b)
    (herr : pub b bytes = .error e) :
    (Publisher.publish_audio pub st bytes name).2.1 = st ∧
    (Publisher.publish_audio pub st bytes name).1.success = false ∧
    (∀ (pub2 : Nat → List Nat → Except String Unit) (st2 : Publisher.PubState)
        (bytes2 : List Nat) (name2 k : String) (v : Nat),
      Publisher.lookup st2.active_broadcasts k = some v →
      Publisher.lookup
        (Publisher.publish_audio pub2 st2 bytes2 name2).2.1.active_broadcasts k = some v) ∧
    (∀ (pub2 : Nat → List Nat → Except String Unit) (st2 : Publisher.PubState)
        (bytes2 : List Nat) (name2 : String),
      (Publisher.publish_audio pub2 st2 bytes2 name2).2.1.active_rooms =
        st2.active_rooms) := by
  have hg : Publisher.get_broadcast st name = (b, st) := by
    simp [Publisher.get_broadcast, hcached]
  refine ⟨?_, ?_, ?_, ?_⟩
  · rw [(publish_audio_parts pub st bytes name).1, hg]
  · simp [Publisher.publish_audio, hg, herr]
  · intro pub2 st2 bytes2 name2 k v hk
    rw [(publish_audio_parts pub2 st2 bytes2 name2).1]
    cases hc : Publisher.lookup st2.active_broadcasts name2 with
    | some b2 => simp [Publisher.get_broadcast, hc, hk]
    | none =>
      have hkne : k ≠ name2 := by
        intro hEq
        rw [hEq, hc] at hk
        exact Option.noConfusion hk
      simp [Publisher.get_broadcast, hc,
        lookup_updateEntry_ne st2.active_broadcasts name2 k st2.next_id hkne, hk]
  · intro pub2 st2 bytes2 name2
    rw [(publish_audio_parts pub2 st2 bytes2 name2).1]
    cases hc : Publisher.lookup st2.active_broadcasts name2 <;>
      simp [Publisher.get_broadcast, hc]

/-- Witness for C5: a transient publish error against a cached broadcast for
`room_kr` leaves the publisher state identical and reports failure. -/
theorem publish_error_cache_atomicity_witness :
    Publisher.lookup ([("room_kr", 7)] : List (String × Nat)) "room_kr" = some 7 ∧
    (Publisher.publish_audio (fun _ _ => .error "transient")
        { active_rooms := [], active_broadcasts := [("room_kr", 7)], next_id := 8 }
        [1, 2, 3] "room_kr").2.1 =
      { active_rooms := [], active_broadcasts := [("room_kr", 7)], next_id := 8 } ∧
    (Publisher.publish_audio (fun _ _ => .error "transient")
        { active_rooms := [], active_broadcasts := [("room_kr", 7)], next_id := 8 }
        [1, 2, 3] "room_kr").1.success = false :=
  ⟨rfl,
   (publish_error_cache_atomicity (fun _ _ => .error "transient")
      { active_rooms := [], active_broadcasts := [("room_kr", 7)], next_id := 8 }
      [1, 2, 3] "room_kr" 7 "transient" rfl rfl).1,
   (publish_error_cache_atomicity (fun _ _ => .error "transient")
      { active_rooms := [], active_broadcasts := [("room_kr", 7)], next_id := 8 }
      [1, 2, 3] "room_kr" 7 "transient" rfl rfl).2.1⟩

/-- C6: the connection cache keeps at most one entry per room name across
`get_room` and `close_room`; `get_room` returns the cached room unchanged when
it is connected and otherwise stores exactly one new connected room under the
key, leaving other keys untouched; a successful `close_room` removes the entry. -/
theorem connection_cache_invariant
    (connect disconnect : Nat → Except String Unit)
    (st : Publisher.PubState) (name : String)
    (hR : Publisher.KeysNodup st.active_rooms) :
    (∀ r, Publisher.lookup st.active_rooms name = some r →
      r.connection_state = Publisher.ConnState.connected →
      Publisher.get_room connect st name = .ok (r, st)) ∧
    (∀ r st2, Publisher.get_room connect st name = .ok (r, st2) →
      Publisher.KeysNodup st2.active_rooms ∧
      Publisher.lookup st2.active_rooms name = some r ∧
      ∀ k, k ≠ name →
        Publisher.lookup st2.active_rooms k = Publisher.lookup st.active_rooms k) ∧
    (∀ st2, Publisher.close_room disconnect st name = (true, st2) →
      Publisher.lookup st2.active_rooms name = none ∧
      Publisher.KeysNodup st2.active_rooms ∧
      ∀ k, k ≠ name →
        Publisher.lookup st2.active_rooms k = Publisher.lookup st.active_rooms k) := by
  have hnew : ∀ r st2, Publisher.connect_new connect st name = .ok (r, st2) →
      Publisher.KeysNodup st2.active_rooms ∧
      Publisher.lookup st2.active_rooms name = some r ∧
      ∀ k, k ≠ name →
        Publisher.lookup st2.active_rooms k = Publisher.lookup st.active_rooms k := by
    intro r st2 hok
    cases hcon : connect st.next_id with
    | ok u =>
      simp only [Publisher.connect_new, hcon, Except.ok.injEq, Prod.mk.injEq] at hok
      obtain ⟨hr, hst⟩ := hok
      subst hst
      refine ⟨keysNodup_updateEntry _ _ _ hR, ?_, ?_⟩
      · rw [← hr]
        exact lookup_updateEntry_self st.active_rooms name _
      · intro k hk
        exact lookup_updateEntry_ne st.active_rooms name k _ hk
    | error e2 =>
      simp only [Publisher.connect_new, hcon] at hok
      exact Except.noConfusion hok
  refine ⟨?_, ?_, ?_⟩
  · intro r hr hconn
    simp [Publisher.get_room, hr, hconn]
  · intro r st2 hok
    cases hc : Publisher.lookup st.active_rooms name with
    | some r0 =>
      by_cases hcs : r0.connection_state = Publisher.ConnState.connected
      · simp only [Publisher.get_room, hc, if_pos hcs, Except.ok.injEq,
          Prod.mk.injEq] at hok
        obtain ⟨hr, hst⟩ := hok
        subst hst
        exact ⟨hR, hr ▸ hc, fun _ _ => rfl⟩
      · simp only [Publisher.get_room, hc, if_neg hcs] at hok
        exact hnew r st2 hok
    | none =>
      simp only [Publisher.get_room, hc] at hok
      exact hnew r st2 hok
  · intro st2 hcl
    cases hc : Publisher.lookup st.active_rooms name with
    | some r0 =>
      cases hd : disconnect r0.id with
      | ok u =>
        simp only [Publisher.close_room, hc, hd, Prod.mk.injEq, true_and] at hcl
        subst hcl
        exact ⟨lookup_eraseEntry_self _ _ hR, keysNodup_eraseEntry _ _ hR,
          fun k hk => lookup_eraseEntry_ne _ _ _ hk⟩
      | error e2 =>
        simp only [Publisher.close_room, hc, hd, Prod.mk.injEq] at hcl
        exact absurd hcl.1 Bool.false_ne_true
    | none =>
      simp only [Publisher.close_room, hc, Prod.mk.injEq, true_and] at hcl
      subst hcl
      exact ⟨hc, hR, fun _ _ => rfl⟩

/-- Witness for C6: reusing a cached connected room for `room_kr`, the unique
entry stored by a fresh creation, and the removal performed by a successful
close, all at concrete states. -/
theorem connection_cache_invariant_witness :
    Publisher.get_room (fun _ => .ok ())
        { active_rooms := [("room_kr", { id := 0, connection_state := .connected })],
          active_broadcasts := [], next_id := 1 } "room_kr" =
      .ok ({ id := 0, connection_state := .connected },
           { active_rooms := [("room_kr", { id := 0, connection_state := .connected })],
             active_broadcasts := [], next_id := 1 }) ∧
    Publisher.lookup
        [("room_kr", ({ id := 0, connection_state := .connected } : Publisher.Room))]
        "room_kr" = some { id := 0, connection_state := .connected } ∧
    Publisher.lookup ([] : List (String × Publisher.Room)) "room_kr" = none := by
  have hR1 : Publisher.KeysNodup
      [("room_kr", ({ id := 0, connection_state := .connected } : Publisher.Room))] := by
    simp [Publisher.KeysNodup, Publisher.keysOf]
  have hR0 : Publisher.KeysNodup ([] : List (String × Publisher.Room)) := by
    simp [Publisher.KeysNodup, Publisher.keysOf]
  refine ⟨?_, ?_, ?_⟩
  · exact (connection_cache_invariant (fun _ => .ok ()) (fun _ => .ok ())
      { active_rooms := [("room_kr", { id := 0, connection_state := .connected })],
        active_broadcasts := [], next_id := 1 } "room_kr" hR1).1
      { id := 0, connection_state := .connected } rfl rfl
  · exact ((connection_cache_invariant (fun _ => .ok ()) (fun _ => .ok ())
      { active_rooms := [], active_broadcasts := [], next_id := 0 } "room_kr" hR0).2.1
      { id := 0, connection_state := .connected }
      { active_rooms := [("room_kr", { id := 0, connection_state := .connected })],
        active_broadcasts := [], next_id := 1 } rfl).2.1
  · exact ((connection_cache_invariant (fun _ => .ok ()) (fun _ => .ok ())
      { active_rooms := [("room_kr", { id := 0, connection_state := .connected })],
        active_broadcasts := [], next_id := 1 } "room_kr" hR1).2.2
      { active_rooms := [], active_broadcasts := [], next_id := 1 } rfl).1

/-- C7: the publish step performs exactly one `broadcast.publish` call whose
payload is byte-for-byte the synthesizer output — both directly through
`publish_audio` and through `translate_and_speak` when synthesis yields those
bytes — with no truncation or mutation of the payload. -/
theorem publish_byte_preservation
    (pub : Nat → List Nat → Except String Unit) (st : Publisher.PubState)
    (bytes : List Nat) (name : String)
    (tts : String → String → Except String (List Nat))
    (text lang lname : String) (hts : tts text lang = .ok bytes) :
    (Publisher.publish_audio pub st bytes name).2.2 =
      [((Publisher.get_broadcast st name).1, bytes)] ∧
    (∀ p ∈ (Publisher.publish_audio pub st bytes name).2.2,
      p.2 = bytes ∧ p.2.length = bytes.length) ∧
    (TranslationSystem.translate_and_speak tts pub st text lang name lname).2.2 =
      [((Publisher.get_broadcast st name).1, bytes)] := by
  have h2 := (publish_audio_parts pub st bytes name).2
  refine ⟨h2, ?_, ?_⟩
  · intro p hp
    rw [h2] at hp
    simp only [List.mem_singleton] at hp
    subst hp
    exact ⟨rfl, rfl⟩
  · simp only [TranslationSystem.translate_and_speak, hts]
    exact h2

/-- Witness for C7 on concrete bytes `[9, 8, 7]` published to `room_vn`. -/
theorem publish_byte_preservation_witness :
    (Publisher.publish_audio (fun _ _ => .ok ())
        { active_rooms := [], active_broadcasts := [], next_id := 0 }
        [9, 8, 7] "room_vn").2.2 = [(0, [9, 8, 7])] ∧
    (TranslationSystem.translate_and_speak (fun _ _ => .ok [9, 8, 7]) (fun _ _ => .ok ())
        { active_rooms := [], active_broadcasts := [], next_id := 0 }
        "你好" "vi" "room_vn" "越南文").2.2 = [(0, [9, 8, 7])] :=
  ⟨(publish_byte_preservation (fun _ _ => .ok ())
      { active_rooms := [], active_broadcasts := [], next_id := 0 } [9, 8, 7] "room_vn"
      (fun _ _ => .ok [9, 8, 7]) "你好" "vi" "越南文" rfl).1,
   (publish_byte_preservation (fun _ _ => .ok ())
      { active_rooms := [], active_broadcasts := [], next_id := 0 } [9, 8, 7] "room_vn"
      (fun _ _ => .ok [9, 8, 7]) "你好" "vi" "越南文" rfl).2.2⟩

/-- C3: a synthesis-stage exception for the Korean target is caught inside the
Korean task and logged with its language name; it neither propagates outward
nor disturbs the Vietnamese pipeline, which still runs and delivers its bytes
to `room_vn`. -/
theorem per_language_failure_isolation
    (tts : String → String → Except String (List Nat))
    (pub : Nat → List Nat → Except String Unit)
    (st : Publisher.PubState) (text e : String) (bytes : List Nat)
    (hko : tts text "ko" = .error e)
    (hvi : tts text "vi" = .ok bytes) :
    TranslationSystem.run_tasks tts pub TranslationSystem.LANGUAGES st text =
      ([TranslationSystem.Outcome.errorLogged "韩文" e,
        TranslationSystem.Outcome.completed "room_vn"
          (Publisher.publish_audio pub st bytes "room_vn").1],
       (Publisher.publish_audio pub st bytes "room_vn").2.1,
       [((Publisher.get_broadcast st "room_vn").1, bytes)]) := by
  have h2 := (publish_audio_parts pub st bytes "room_vn").2
  simp [TranslationSystem.LANGUAGES, TranslationSystem.run_tasks,
    TranslationSystem.translate_and_speak, hko, hvi, h2]

/-- Witness for C3: the Korean synthesizer throws, the Vietnamese one returns
`[1, 2]`, and the run logs the Korean error while publishing the Vietnamese
bytes. -/
theorem per_language_failure_isolation_witness :
    TranslationSystem.run_tasks
        (fun _ l => if l = "ko" then .error "boom" else .ok [1, 2])
        (fun _ _ => .ok ())
        TranslationSystem.LANGUAGES
        { active_rooms := [], active_broadcasts := [], next_id := 0 } "你好" =
      ([TranslationSystem.Outcome.errorLogged "韩文" "boom",
        TranslationSystem.Outcome.completed "room_vn" { success := true, error := none }],
       { active_rooms := [], active_broadcasts := [("room_vn", 0)], next_id := 1 },
       [(0, [1, 2])]) :=
  per_language_failure_isolation
    (fun _ l => if l = "ko" then .error "boom" else .ok [1, 2]) (fun _ _ => .ok ())
    { active_rooms := [], active_broadcasts := [], next_id := 0 } "你好" "boom" [1, 2]
    rfl rfl

/-- C4 counterexample: with a translator call that raises, the handler delivers
a bracketed error string to the downstream `on_kr_translation` callback rather
than suppressing delivery, and `GroqTranslator.generate` returns substitute
error text to its caller instead of raising — error text does reach the output
path, contrary to the claim. -/
theorem translate_failure_counterexample :
    (DeepgramSetup.translate_text_kr (fun _ => .error "boom") "你好").1 =
      ["[韩文翻译错误: boom]"] ∧
    (DeepgramSetup.translate_text_kr (fun _ => .error "boom") "你好").1 ≠ [] ∧
    SessionFactory.GroqTranslator_generate (fun _ => .error "boom") "你好" =
      "[翻译错误: boom]" := by
  refine ⟨rfl, ?_, rfl⟩
  simp [DeepgramSetup.translate_text_kr]

/-- C4 amended: the translator is invoked exactly once per handled transcript
(no retry); a reply that trims to empty causes no downstream delivery; a
non-empty reply delivers exactly the trimmed translation; a raised exception
is contained in the handler but delivers a bracketed error text downstream in
place of a translation, and `GroqTranslator.generate` likewise returns a
bracketed error string instead of raising. -/
theorem translate_failure_containment
    (achat : String → Except String DeepgramSetup.ChatResponse) (text : String) :
    (DeepgramSetup.translate_text_kr achat text).2 = [DeepgramSetup.kr_prompt text] ∧
    (∀ resp, achat (DeepgramSetup.kr_prompt text) = .ok resp → resp.content.trim = "" →
      (DeepgramSetup.translate_text_kr achat text).1 = []) ∧
    (∀ resp, achat (DeepgramSetup.kr_prompt text) = .ok resp → resp.content.trim ≠ "" →
      (DeepgramSetup.translate_text_kr achat text).1 = [resp.content.trim]) ∧
    (∀ e, achat (DeepgramSetup.kr_prompt text) = .error e →
      (DeepgramSetup.translate_text_kr achat text).1 = ["[韩文翻译错误: " ++ e ++ "]"]) ∧
    (∀ (complete : String → Except String String) (e : String), complete text = .error e →
      SessionFactory.GroqTranslator_generate complete text = "[翻译错误: " ++ e ++ "]") := by
  refine ⟨?_, ?_, ?_, ?_, ?_⟩
  · cases ha : achat (DeepgramSetup.kr_prompt text) <;>
      simp [DeepgramSetup.translate_text_kr, ha]
  · intro resp hr he
    simp [DeepgramSetup.translate_text_kr, hr, he]
  · intro resp hr he
    simp [DeepgramSetup.translate_text_kr, hr, he]
  · intro e he
    simp [DeepgramSetup.translate_text_kr, he]
  · intro complete e he
    simp [SessionFactory.GroqTranslator_generate, he]

/-- Witness for the amended C4 at a concrete raising translator. -/
theorem translate_failure_containment_witness :
    (DeepgramSetup.translate_text_kr (fun _ => .error "timeout") "你好").1 =
      ["[韩文翻译错误: timeout]"] ∧
    (DeepgramSetup.translate_text_kr (fun _ => .error "timeout") "你好").2 =
      [DeepgramSetup.kr_prompt "你好"] ∧
    SessionFactory.GroqTranslator_generate (fun _ => .error "timeout") "你好" =
      "[翻译错误: timeout]" :=
  ⟨(translate_failure_containment (fun _ => .error "timeout") "你好").2.2.2.1 "timeout" rfl,
   (translate_failure_containment (fun _ => .error "timeout") "你好").1,
   (translate_failure_containment (fun _ => .error "timeout") "你好").2.2.2.2
      (fun _ => .error "timeout") "timeout" rfl⟩

/-- C8 counterexample: the integrated transcript handler awaits
`asyncio.gather` over its pipeline tasks before returning (its effect trace on
an accepted transcript contains an await), and the deepgram-setup handler
spawns its translation task with the handle discarded. -/
theorem fire_and_forget_counterexample :
    TranslationSystem.Effect.awaitTasks 2 ∈
      TranslationSystem.handle_transcript_effects "" "你好" ∧
    ¬ TranslationSystem.returnsWithoutWaiting
        (TranslationSystem.handle_transcript_effects "" "你好") ∧
    DeepgramSetup.handle_transcript_effects "你好" =
      [TranslationSystem.Effect.spawnTask "translate_text" "你好" false] := by
  refine ⟨by decide, ?_, rfl⟩
  intro h
  exact h 2 (by decide)

/-- C8 amended: on an accepted transcript the integrated handler spawns one
task per configured language and then awaits them all before returning, so
dispatch there is not fire-and-forget; the deepgram-setup handler does return
without awaiting, but discards the spawned task handle, so no per-pipeline
handle is retained for shutdown. -/
theorem fire_and_forget_dispatch (last text : String) (h : text ≠ last) :
    TranslationSystem.handle_transcript_effects last text =
      (TranslationSystem.LANGUAGES.map fun p =>
        TranslationSystem.Effect.spawnTask p.1 p.2.room true) ++
      [TranslationSystem.Effect.awaitTasks TranslationSystem.LANGUAGES.length] ∧
    ¬ TranslationSystem.returnsWithoutWaiting
        (TranslationSystem.handle_transcript_effects last text) ∧
    (∀ t2, TranslationSystem.returnsWithoutWaiting
        (DeepgramSetup.handle_transcript_effects t2)) ∧
    (∀ t2 lc rm b, TranslationSystem.Effect.spawnTask lc rm b ∈
        DeepgramSetup.handle_transcript_effects t2 → b = false) := by
  refine ⟨?_, ?_, ?_, ?_⟩
  · simp [TranslationSystem.handle_transcript_effects, if_neg h]
  · intro hw
    exact hw TranslationSystem.LANGUAGES.length
      (by simp [TranslationSystem.handle_transcript_effects, if_neg h])
  · intro t2 n hmem
    simp [DeepgramSetup.handle_transcript_effects] at hmem
  · intro t2 lc rm b hmem
    simp [DeepgramSetup.handle_transcript_effects] at hmem
    exact hmem.2.2

/-- Witness for the amended C8 on the transcript 你好 at a fresh gate. -/
theorem fire_and_forget_dispatch_witness :
    ("你好" : String) ≠ "" ∧
    TranslationSystem.handle_transcript_effects "" "你好" =
      [TranslationSystem.Effect.spawnTask "ko" "room_kr" true,
       TranslationSystem.Effect.spawnTask "vi" "room_vn" true,
       TranslationSystem.Effect.awaitTasks 2] :=
  ⟨by decide, (fire_and_forget_dispatch "" "你好" (by decide)).1⟩

/-- C9 counterexample: with the Cartesia key missing, `TranslationSystem.start`
returns early without terminating or raising, and with the whole LiveKit
channel configuration missing, `AudioPublisher.__init__` completes with only a
logged warning — neither path terminates or raises, contrary to the claim. -/
theorem config_error_counterexample :
    Startup.translation_system_start false (some "dgkey") none =
      Startup.StartOutcome.refusedQuiet ∧
    Startup.isFatal (Startup.translation_system_start false (some "dgkey") none) = false ∧
    Startup.audio_publisher_init none none none =
      (Startup.StartOutcome.started, true) :=
  ⟨rfl, rfl, rfl⟩

/-- C9 amended: the livekit_agent entrypoint terminates with exit code 1
exactly when one of the Groq/Deepgram/Cartesia keys is empty;
`TranslationSystem.start` refuses to start the pipeline by returning early —
never by terminating — whenever the Deepgram or Cartesia key is falsy; and
`AudioPublisher.__init__` always completes, warning exactly when the LiveKit
channel configuration is incomplete. -/
theorem config_error_startup (g d c : String) (dg ct url k s : Option String)
    (b : Bool) :
    (Startup.livekit_agent_startup g d c = .exited 1 ↔ (g = "" ∨ d = "" ∨ c = "")) ∧
    (Startup.translation_system_start false dg ct =
      if Startup.strFalsy dg || Startup.strFalsy ct then .refusedQuiet else .started) ∧
    Startup.isFatal (Startup.translation_system_start b dg ct) = false ∧
    Startup.audio_publisher_init url k s =
      (.started, Startup.strFalsy url || Startup.strFalsy k || Startup.strFalsy s) := by
  refine ⟨?_, ?_, ?_, rfl⟩
  · constructor
    · intro h
      by_contra hc
      push_neg at hc
      simp [Startup.livekit_agent_startup, hc.1, hc.2.1, hc.2.2] at h
    · intro h
      simp [Startup.livekit_agent_startup, h]
  · simp [Startup.translation_system_start]
  · cases b with
    | true => rfl
    | false =>
      by_cases hc : (Startup.strFalsy dg || Startup.strFalsy ct) = true
      · simp [Startup.translation_system_start, hc, Startup.isFatal]
      · simp [Startup.translation_system_start, hc, Startup.isFatal]

/-- C10: for every language code outside the supported ko/vi set (jp in
particular), and likewise whenever the API key is falsy, both
`CartesiaTTS.text_to_speech` and `CartesiaTTS.tts_stream` stop at a
`ValueError` and never issue a network request. -/
theorem synthesizer_precondition (api_key : Option String) (text language : String)
    (h : (language ≠ "ko" ∧ language ≠ "vi") ∨ Startup.strFalsy api_key = true) :
    (∃ m, Cartesia.text_to_speech api_key text language = .valueError m) ∧
    (∃ m, Cartesia.tts_stream api_key text language = .valueError m) ∧
    Cartesia.issuesRequest (Cartesia.text_to_speech api_key text language) = false ∧
    Cartesia.issuesRequest (Cartesia.tts_stream api_key text language) = false := by
  cases hk : Startup.strFalsy api_key with
  | true =>
    refine ⟨⟨"Cartesia API 密钥未设置", ?_⟩, ⟨"Cartesia API 密钥未设置", ?_⟩, ?_, ?_⟩ <;>
      simp [Cartesia.text_to_speech, Cartesia.tts_stream, hk, Cartesia.issuesRequest]
  | false =>
    have hl : Publisher.lookup Cartesia.LANGUAGE_CODES language = none := by
      rcases h with ⟨h1, h2⟩ | h2
      · simp [Cartesia.LANGUAGE_CODES, Publisher.lookup, Ne.symm h1, Ne.symm h2]
      · rw [h2] at hk
        exact Bool.noConfusion hk
    refine ⟨⟨"不支持的语言代码: " ++ language, ?_⟩,
            ⟨"不支持的语言代码: " ++ language, ?_⟩, ?_, ?_⟩ <;>
      simp [Cartesia.text_to_speech, Cartesia.tts_stream, hk, hl, Cartesia.issuesRequest]

/-- Witness for C10 at the Japanese language code with an API key present. -/
theorem synthesizer_precondition_witness :
    (("jp" : String) ≠ "ko" ∧ ("jp" : String) ≠ "vi") ∧
    Cartesia.issuesRequest (Cartesia.text_to_speech (some "key") "こんにちは" "jp") = false ∧
    Cartesia.issuesRequest (Cartesia.tts_stream (some "key") "こんにちは" "jp") = false :=
  ⟨⟨by decide, by decide⟩,
   (synthesizer_precondition (some "key") "こんにちは" "jp"
      (Or.inl ⟨by decide, by decide⟩)).2.2.1,
   (synthesizer_precondition (some "key") "こんにちは" "jp"
      (Or.inl ⟨by decide, by decide⟩)).2.2.2⟩
